import Mathlib

/-
  Shallow embedding of the Payment Reconciliation Engine of the VipBotGate
  repository (src/database.py, src/bot/btc_api.py, src/bot/payment_checker.py,
  src/bot/handlers.py, src/bot/services/payment_service.py, src/bot/admin.py,
  src/bot/models.py, src/bot/core/config.py), together with theorems that
  settle the spec claims against it.

  Conventions of the embedding:
  - Python floats for money and rates are modelled as rationals; integer
    satoshi values are naturals divided by 10^8 exactly as the source does.
  - Timestamps are rationals measured in minutes (Config.PAYMENT_TIMEOUT_MINUTES
    is 30; a duration of d days is d * 1440 minutes).
  - Network effects are modelled by passing the outcome each source would
    deliver (a response value per source, or an oracle function for the
    balance and double-spend feeds); the engine code itself is pure.
  - The persisted store is a record of row lists kept in insertion order;
    SQL UPDATE statements become maps over the row lists, each statement one
    atomic step, and SELECT ... ORDER BY RANDOM() LIMIT 1 takes an extra
    index argument r selecting among the candidate rows.
-/

namespace VipBotGate

/-! ## Data model (bot/models.py, database.py CREATE TABLE) -/

/-- PlanType enum of bot/models.py. -/
inductive PlanType
  | VIP1
  | VIP2
  | VIP3
deriving DecidableEq, Repr

/-- The .value string of a PlanType member, as stored in transaction and
subscription rows (payment_service.py passes plan_type.value to the store). -/
def PlanType.value : PlanType → String
  | .VIP1 => "VIP1"
  | .VIP2 => "VIP2"
  | .VIP3 => "VIP3"

/-- PlanType(s) conversion from a stored string; none models the ValueError
the Python constructor raises on an unknown string. -/
def PlanType.ofValue? : String → Option PlanType
  | "VIP1" => some .VIP1
  | "VIP2" => some .VIP2
  | "VIP3" => some .VIP3
  | _ => none

/-- price_usd field of get_plan_configs (bot/models.py). -/
def price_usd : PlanType → ℚ
  | .VIP1 => 50
  | .VIP2 => 100
  | .VIP3 => 200

/-- duration_days field of get_plan_configs (bot/models.py); none is the
lifetime VIP3 plan. -/
def duration_days : PlanType → Option ℕ
  | .VIP1 => some 30
  | .VIP2 => some 30
  | .VIP3 => none

/-- Config.PAYMENT_TIMEOUT_MINUTES (bot/core/config.py). -/
def PAYMENT_TIMEOUT_MINUTES : ℚ := 30

/-- TransactionStatus enum of bot/models.py; the status column of the
transactions table holds the corresponding lowercase strings. -/
inductive TxStatus
  | pending
  | confirmed
  | expired
  | cancelled
deriving DecidableEq, Repr

/-- A status is terminal when it is confirmed, expired or cancelled. -/
def TxStatus.isTerminal : TxStatus → Bool
  | .pending => false
  | _ => true

/-- SubscriptionStatus enum of bot/models.py. -/
inductive SubStatus
  | active
  | expired
  | cancelled
deriving DecidableEq, Repr

/-- A row of the btc_addresses table (database.py create_tables). -/
structure BtcAddress where
  address : String
  is_used : Bool
  assigned_to : Option ℕ
deriving DecidableEq, Repr

/-- A row of the transactions table. plan_type holds the enum's string value
exactly as the store does (create_transaction receives plan_type.value). -/
structure Transaction where
  id : ℕ
  user_id : ℕ
  plan_type : String
  btc_address : String
  btc_amount : ℚ
  usd_amount : ℚ
  btc_rate : ℚ
  status : TxStatus
  created_at : ℚ
  expires_at : ℚ
  confirmed_at : Option ℚ
deriving DecidableEq, Repr

/-- A row of the subscriptions table. -/
structure Subscription where
  user_id : ℕ
  plan_type : String
  transaction_id : ℕ
  status : SubStatus
  created_at : ℚ
  expires_at : Option ℚ
deriving DecidableEq, Repr

/-- The persisted store: row lists in insertion order plus the SERIAL counter
feeding transactions.id. -/
structure DBState where
  addresses : List BtcAddress
  transactions : List Transaction
  subscriptions : List Subscription
  next_tx_id : ℕ
deriving DecidableEq, Repr

/-! ## Store operations (database.py) -/

/-- database.get_available_btc_address: SELECT address FROM btc_addresses
WHERE is_used = FALSE ORDER BY RANDOM() LIMIT 1.  The RANDOM() pick is
modelled by the index r into the list of available rows; none is returned
exactly when no row is available. -/
def get_available_btc_address (s : DBState) (r : ℕ) : Option String :=
  let avail := s.addresses.filter (fun a => !a.is_used)
  (avail.get? (r % avail.length)).map (·.address)

/-- The per-row effect of the conditional UPDATE of assign_btc_address. -/
def assign_upd (address : String) (user_id : ℕ) (a : BtcAddress) : BtcAddress :=
  if a.address = address ∧ a.is_used = false then
    { a with is_used := true, assigned_to := some user_id }
  else a

/-- database.assign_btc_address: UPDATE btc_addresses SET is_used = TRUE,
assigned_to = user WHERE address = a AND is_used = FALSE, one atomic
conditional update; the returned flag is true iff a row was updated. -/
def assign_btc_address (s : DBState) (address : String) (user_id : ℕ) :
    DBState × Bool :=
  let hit := s.addresses.any (fun a => decide (a.address = address) && !a.is_used)
  ({ s with addresses := s.addresses.map (assign_upd address user_id) }, hit)

/-- The per-row effect of the UPDATE of release_btc_address. -/
def release_upd (address : String) (a : BtcAddress) : BtcAddress :=
  if a.address = address then { a with is_used := false, assigned_to := none }
  else a

/-- database.release_btc_address: UPDATE btc_addresses SET is_used = FALSE,
assigned_to = NULL WHERE address = a; unconditional. -/
def release_btc_address (s : DBState) (address : String) : DBState :=
  { s with addresses := s.addresses.map (release_upd address) }

/-- database.create_transaction: INSERT a new row whose status defaults to
'pending' and whose id is the next SERIAL value, RETURNING id. -/
def create_transaction (s : DBState) (user_id : ℕ) (plan_type : String)
    (btc_address : String) (btc_amount usd_amount btc_rate : ℚ)
    (now expires_at : ℚ) : DBState × ℕ :=
  let t : Transaction :=
    { id := s.next_tx_id, user_id := user_id, plan_type := plan_type,
      btc_address := btc_address, btc_amount := btc_amount,
      usd_amount := usd_amount, btc_rate := btc_rate, status := .pending,
      created_at := now, expires_at := expires_at, confirmed_at := none }
  ({ s with transactions := s.transactions ++ [t],
            next_tx_id := s.next_tx_id + 1 },
   s.next_tx_id)

/-- The per-row effect of the UPDATE of update_transaction_status. -/
def status_upd (transaction_id : ℕ) (status : TxStatus)
    (confirmed_at : Option ℚ) (t : Transaction) : Transaction :=
  if t.id = transaction_id then
    { t with status := status,
             confirmed_at := match confirmed_at with
               | some c => some c
               | none => t.confirmed_at }
  else t

/-- database.update_transaction_status: when a confirmed_at value is passed,
UPDATE status and confirmed_at WHERE id; otherwise UPDATE only status
WHERE id.  No status guard is present in the SQL. -/
def update_transaction_status (s : DBState) (transaction_id : ℕ)
    (status : TxStatus) (confirmed_at : Option ℚ) : DBState :=
  { s with transactions :=
      s.transactions.map (status_upd transaction_id status confirmed_at) }

/-- database.get_pending_transactions: WHERE status = 'pending' ORDER BY
created_at ASC; rows are kept in insertion order which is created_at order
in every trace the engine produces. -/
def get_pending_transactions (s : DBState) : List Transaction :=
  s.transactions.filter (fun t => decide (t.status = .pending))

/-- database.get_user_transactions: WHERE user_id ORDER BY created_at DESC,
hence the reversal of the insertion-ordered matches. -/
def get_user_transactions (s : DBState) (user_id : ℕ) : List Transaction :=
  (s.transactions.filter (fun t => decide (t.user_id = user_id))).reverse

/-- database.get_pending_transaction: the user's pending transaction with
the greatest created_at (ORDER BY created_at DESC LIMIT 1), i.e. the last
match in insertion order. -/
def get_pending_transaction (s : DBState) (user_id : ℕ) : Option Transaction :=
  (s.transactions.filter
    (fun t => decide (t.user_id = user_id ∧ t.status = .pending))).getLast?

/-- database.get_active_subscription: status = 'active' and expires_at NULL
or strictly in the future, newest first, LIMIT 1. -/
def get_active_subscription (s : DBState) (user_id : ℕ) (now : ℚ) :
    Option Subscription :=
  (s.subscriptions.filter (fun sub =>
    decide (sub.user_id = user_id) && decide (sub.status = .active) &&
      (match sub.expires_at with
        | none => true
        | some e => decide (now < e)))).getLast?

/-- database.create_subscription: INSERT a row whose status defaults to
'active'. -/
def create_subscription (s : DBState) (user_id : ℕ) (plan_type : String)
    (transaction_id : ℕ) (now : ℚ) (expires_at : Option ℚ) : DBState :=
  { s with subscriptions := s.subscriptions ++
      [{ user_id := user_id, plan_type := plan_type,
         transaction_id := transaction_id, status := .active,
         created_at := now, expires_at := expires_at }] }

/-- The allocation half of database.get_next_btc_address: pick an available
address and conditionally assign it; on a failed conditional assignment the
function returns none without retrying. -/
def get_next_btc_address_alloc (s : DBState) (user_id : ℕ) (r : ℕ) :
    DBState × Option String :=
  match get_available_btc_address s r with
  | none => (s, none)
  | some address =>
    let p := assign_btc_address s address user_id
    if p.2 then (p.1, some address) else (p.1, none)

/-- database.get_next_btc_address: fetch the btc_address of some pending
transaction of the user (SELECT ... LIMIT 1, no ORDER BY, modelled as the
first match); Python then tests the fetched string for truthiness, so a
pending row whose address is the empty string does not block allocation. -/
def get_next_btc_address (s : DBState) (user_id : ℕ) (r : ℕ) :
    DBState × Option String :=
  match (s.transactions.filter
      (fun t => decide (t.user_id = user_id ∧ t.status = .pending))).head? with
  | some t =>
    if t.btc_address = "" then get_next_btc_address_alloc s user_id r
    else (s, none)
  | none => get_next_btc_address_alloc s user_id r

/-- The per-row effect of the UPDATE of expire_old_transactions. -/
def expire_upd (now : ℚ) (t : Transaction) : Transaction :=
  if t.status = .pending ∧ t.expires_at < now then { t with status := .expired }
  else t

/-- database.expire_old_transactions: one UPDATE setting status = 'expired'
WHERE status = 'pending' AND expires_at < now, then an unconditional release
of every affected address.  (Dead code in the running system: its only
caller, cleanup_database, is never invoked.) -/
def expire_old_transactions (s : DBState) (now : ℚ) : DBState :=
  let hits := s.transactions.filter
    (fun t => decide (t.status = .pending ∧ t.expires_at < now))
  let s1 : DBState := { s with transactions := s.transactions.map (expire_upd now) }
  hits.foldl (fun acc tx => release_btc_address acc tx.btc_address) s1

/-! ## Price and balance oracles, double-spend detector (bot/btc_api.py)

The network outcome of each configured source is modelled as a response
value; the functions below are the pure control flow of the source. -/

/-- Outcome of fetching one price source: ok (some q) is an HTTP 200 whose
parser produced q; ok none is an HTTP 200 whose parser raised; the rest are
the non-200 and exception branches of get_btc_price. -/
inductive PriceResponse
  | ok (parsed : Option ℚ)
  | httpError
  | timeout
  | connError
  | jsonError
  | otherError
deriving DecidableEq, Repr

/-- The value a price source contributes: only an HTTP 200 whose parser
returned a strictly positive number is accepted. -/
def price_accepted : PriceResponse → Option ℚ
  | .ok (some q) => if 0 < q then some q else none
  | _ => none

/-- BTCPriceAPI.get_btc_price: walk the configured sources in order, return
the first accepted (strictly positive) parse, and fall back to the
configured FALLBACK_BTC_PRICE when every source is exhausted. -/
def get_btc_price : List PriceResponse → ℚ → ℚ
  | [], fallback_price => fallback_price
  | r :: rest, fallback_price =>
    match price_accepted r with
    | some price => price
    | none => get_btc_price rest fallback_price

/-- Vendor family of a configured blockchain (balance) source, as selected
by the URL substring tests of check_address_balance; unsupported hosts are
skipped without being contacted. -/
inductive BalSourceKind
  | blockstream
  | mempoolspace
  | blockcypher
  | blockchaininfo
  | blockchair
  | unsupported
deriving DecidableEq, Repr

/-- Outcome of contacting one balance source: ok (some q) is an HTTP 200
whose parser produced the BTC amount q (minor units already divided by 10^8
by the parser); ok none is a 200 whose parser raised; notFound is the 404
branch; the rest are the other non-200 and exception branches.  Every one of
them except ok (some q) falls through to the next source. -/
inductive BalResponse
  | ok (parsed : Option ℚ)
  | notFound
  | httpError
  | timeout
  | connError
  | jsonError
  | otherError
deriving DecidableEq, Repr

/-- One configured blockchain source together with the outcome the network
would deliver for the queried address. -/
structure BalSource where
  kind : BalSourceKind
  resp : BalResponse
deriving DecidableEq, Repr

/-- The balance a source yields to check_address_balance, none when the
source is skipped as unsupported or delivers no usable 200 response. -/
def bal_usable (src : BalSource) : Option ℚ :=
  match src.kind with
  | .unsupported => none
  | _ =>
    match src.resp with
    | .ok (some b) => some b
    | _ => none

/-- The source-walking loop of check_address_balance, also counting how many
sources are actually contacted (unsupported ones are skipped before any
fetch). -/
def check_address_balance_go : List BalSource → ℚ × ℕ
  | [] => (0, 0)
  | src :: rest =>
    match src.kind with
    | .unsupported => check_address_balance_go rest
    | _ =>
      match src.resp with
      | .ok (some b) => (b, 1)
      | _ =>
        let p := check_address_balance_go rest
        (p.1, p.2 + 1)

/-- BTCPriceAPI.check_address_balance: an address shorter than 26 characters
(which covers the empty string of the `not address` test) is rejected
before any source is contacted; otherwise the sources are walked in order
and exhaustion returns balance 0.  The second component counts contacted
sources. -/
def check_address_balance_run (address : String) (sources : List BalSource) :
    ℚ × ℕ :=
  if address.length < 26 then (0, 0)
  else check_address_balance_go sources

/-- The balance value alone, as the callers of check_address_balance see it. -/
def check_address_balance (address : String) (sources : List BalSource) : ℚ :=
  (check_address_balance_run address sources).1

/-- One output of a transaction in the blockstream.info history payload:
the receiving script address and the value in satoshis. -/
structure TxOut where
  scriptpubkey_address : String
  value : ℕ
deriving DecidableEq, Repr

/-- One transaction of the history payload (only its vout list is read). -/
structure HistTx where
  vout : List TxOut
deriving DecidableEq, Repr

/-- Outcome of the single blockstream.info history fetch made by
check_double_spend. -/
inductive HistResponse
  | ok (txs : List HistTx)
  | notFound
  | httpError
  | timeout
  | connError
  | jsonError
  | otherError
deriving DecidableEq, Repr

/-- Python's built-in abs on a float value, modelled on the rationals. -/
def pyAbs (q : ℚ) : ℚ := if q < 0 then -q else q

/-- The counting loop of check_double_spend on a 200 response: an output
matches when it pays the queried address and its BTC value differs from
expected_amount by strictly less than 0.00001 BTC (the inline comment of
the source calls this a 1-satoshi tolerance; 0.00001 BTC is 1000 satoshis). -/
def count_matching_outputs (address : String) (expected_amount : ℚ)
    (txs : List HistTx) : ℕ :=
  txs.foldl (fun acc tx => acc +
    (tx.vout.filter (fun v =>
      decide (v.scriptpubkey_address = address) &&
      decide (pyAbs (((v.value : ℚ) / 100000000) - expected_amount) < 1 / 100000))).length) 0

/-- BTCPriceAPI.check_double_spend.  A falsy address (None or the empty
string) returns false before any fetch; a 200 response returns true exactly
when at least two matching outputs exist (the loop returns true as soon as
relevant_tx_count exceeds 1, and false after the loop otherwise); a 404
returns false; every other status and every exception returns true. -/
def check_double_spend (address : Option String) (expected_amount : ℚ)
    (resp : HistResponse) : Bool :=
  match address with
  | none => false
  | some a =>
    if a = "" then false
    else
      match resp with
      | .ok txs => 2 ≤ count_matching_outputs a expected_amount txs
      | .notFound => false
      | _ => true

/-- Whether check_double_spend performs the history fetch at all: the falsy
address guard returns before the HTTP session is opened. -/
def check_double_spend_contacts (address : Option String) : Bool :=
  match address with
  | none => false
  | some a => !(a = "")

/-! ## Engine operations (payment_checker.py, payment_service.py,
handlers.py, admin.py) -/

/-- Python == between a stored plan string (row fields such as
pending_tx['plan_type'] hold "VIP1"/"VIP2"/"VIP3") and a PlanType enum
member (the parameter of initiate_purchase, always built as
PlanType(data.split("_")[1].upper()) by handle_callback).  In Python a plain
enum.Enum member compares equal only to itself, never to its .value string,
so this comparison is False for every pair of operands. -/
def py_eq_str_plan (_stored : String) (_p : PlanType) : Bool := false

/-- PaymentService.create_payment (bot/services/payment_service.py): none on
an existing active subscription; none when get_next_btc_address yields no
address; otherwise insert a pending transaction with
btc_amount = price_usd / btc_price and expires_at = now + the payment
timeout, and return the inserted row.  A zero btc_price raises
ZeroDivisionError inside the try block after the address was already
assigned; the except handler turns that into none. -/
def PaymentService.create_payment (s : DBState) (user_id : ℕ) (plan_type : PlanType)
    (btc_price : ℚ) (now : ℚ) (r : ℕ) : DBState × Option Transaction :=
  match get_active_subscription s user_id now with
  | some _ => (s, none)
  | none =>
    let p := get_next_btc_address s user_id r
    match p.2 with
    | none => (p.1, none)
    | some btc_address =>
      if btc_price = 0 then (p.1, none)
      else
        let usd_amount := price_usd plan_type
        let btc_amount := usd_amount / btc_price
        let expires_at := now + PAYMENT_TIMEOUT_MINUTES
        let q := create_transaction p.1 user_id plan_type.value btc_address
          btc_amount usd_amount btc_price now expires_at
        (q.1, some
          { id := q.2, user_id := user_id, plan_type := plan_type.value,
            btc_address := btc_address, btc_amount := btc_amount,
            usd_amount := usd_amount, btc_rate := btc_price,
            status := .pending, created_at := now, expires_at := expires_at,
            confirmed_at := none })

/-- payment_checker.confirm_payment: set the row confirmed with
confirmed_at = now, then create the subscription whose expiry is
now + duration_days (in minutes) or NULL for the lifetime plan.  An unknown
plan string makes PlanType(plan_type) raise after the status update; the
surrounding try then skips the subscription.  Message sending is
presentation and is not modelled. -/
def confirm_payment (s : DBState) (tx : Transaction) (now : ℚ) : DBState :=
  let s1 := update_transaction_status s tx.id .confirmed (some now)
  match PlanType.ofValue? tx.plan_type with
  | none => s1
  | some p =>
    let expires_at := (duration_days p).map (fun d => now + (d : ℚ) * 1440)
    create_subscription s1 tx.user_id tx.plan_type tx.id now expires_at

/-- payment_checker.check_single_payment for one fetched pending row: when
the observed balance covers btc_amount and the double-spend oracle is quiet,
confirm; a suspected double spend only alerts the admin (no state change); a
partial or zero balance only notifies (no state change). -/
def check_single_payment (bal : String → ℚ) (ds : String → ℚ → Bool)
    (now : ℚ) (s : DBState) (tx : Transaction) : DBState :=
  if tx.btc_amount ≤ bal tx.btc_address then
    if ds tx.btc_address tx.btc_amount then s
    else confirm_payment s tx now
  else s

/-- The per-row body of payment_checker.handle_expired_transactions: release
the address only when the observed balance is exactly zero, then mark the
row expired. -/
def handle_expired_step (bal : String → ℚ) (s : DBState) (tx : Transaction) :
    DBState :=
  let s1 := if bal tx.btc_address = 0 then release_btc_address s tx.btc_address
            else s
  update_transaction_status s1 tx.id .expired none

/-- payment_checker.handle_expired_transactions: fetch the pending rows
whose expires_at has passed and process each with handle_expired_step. -/
def handle_expired_transactions (s : DBState) (bal : String → ℚ) (now : ℚ) :
    DBState :=
  (s.transactions.filter
    (fun t => decide (t.status = .pending ∧ t.expires_at ≤ now))).foldl
    (handle_expired_step bal) s

/-- payment_checker.check_payments_job: evaluate every currently pending
row first, then sweep the time-expired pending rows. -/
def check_payments_job (s : DBState) (bal : String → ℚ)
    (ds : String → ℚ → Bool) (now : ℚ) : DBState :=
  let s1 := (get_pending_transactions s).foldl (check_single_payment bal ds now) s
  handle_expired_transactions s1 bal now

/-- The per-row body of handlers.cancel_plan: release the address only if
the observed balance is zero, then mark the row cancelled.
check_address_balance never raises (it catches every per-source error), so
the surrounding try never skips the release. -/
def cancel_plan_step (bal : String → ℚ) (acc : DBState) (tx : Transaction) :
    DBState :=
  let acc1 := if bal tx.btc_address = 0 then release_btc_address acc tx.btc_address
              else acc
  update_transaction_status acc1 tx.id .cancelled none

/-- handlers.cancel_plan proper: fold the per-row body over the user's
pending transactions. -/
def cancel_plan (s : DBState) (user_id : ℕ) (bal : String → ℚ) : DBState :=
  ((get_user_transactions s user_id).filter
    (fun t => decide (t.status = .pending))).foldl (cancel_plan_step bal) s

/-- The cancel-and-release stage of handlers.initiate_purchase, reached
whenever the user has a pending transaction: mark it cancelled and release
its address unconditionally — no balance is observed on this path. -/
def cancel_pending_for_replacement (s : DBState) (ptx : Transaction) : DBState :=
  release_btc_address (update_transaction_status s ptx.id .cancelled none)
    ptx.btc_address

/-- Result of handlers.initiate_purchase as far as the engine is concerned. -/
inductive PurchaseResult
  | no_price
  | already_subscribed
  | existing_pending (tx : Transaction)
  | created (tx : Transaction)
  | failed
deriving DecidableEq, Repr

/-- handlers.initiate_purchase (the second definition in the module, which
shadows the earlier identical one): a falsy price aborts; the
already-subscribed and show-existing-pending branches test the stored plan
string against the PlanType parameter with Python ==, which never holds
(py_eq_str_plan); any pending transaction is therefore cancelled and its
address released unconditionally before PaymentService.create_payment
runs. -/
def initiate_purchase (s : DBState) (user_id : ℕ) (plan_type : PlanType)
    (btc_price : ℚ) (now : ℚ) (r : ℕ) : DBState × PurchaseResult :=
  if btc_price = 0 then (s, .no_price)
  else
    if (match get_active_subscription s user_id now with
        | some sub => py_eq_str_plan sub.plan_type plan_type
        | none => false) then
      (s, .already_subscribed)
    else
      match get_pending_transaction s user_id with
      | some ptx =>
        if py_eq_str_plan ptx.plan_type plan_type then (s, .existing_pending ptx)
        else
          let s2 := cancel_pending_for_replacement s ptx
          let q := PaymentService.create_payment s2 user_id plan_type btc_price now r
          (q.1, match q.2 with
                | some tx => .created tx
                | none => .failed)
      | none =>
        let q := PaymentService.create_payment s user_id plan_type btc_price now r
        (q.1, match q.2 with
              | some tx => .created tx
              | none => .failed)

/-- admin.force_approve_transaction: fetch the row by id, refuse unless its
status is pending, then set it confirmed and create the subscription exactly
as confirm_payment does. -/
def force_approve_transaction (s : DBState) (tx_id : ℕ) (now : ℚ) : DBState :=
  match s.transactions.find? (fun t => decide (t.id = tx_id)) with
  | none => s
  | some tx =>
    if tx.status = .pending then
      let s1 := update_transaction_status s tx_id .confirmed (some now)
      match PlanType.ofValue? tx.plan_type with
      | none => s1
      | some p =>
        let expires_at := (duration_days p).map (fun d => now + (d : ℚ) * 1440)
        create_subscription s1 tx.user_id tx.plan_type tx_id now expires_at
    else s

/-- admin.force_reject_transaction: fetch the row by id, refuse unless its
status is pending, then set it cancelled and release its address
unconditionally. -/
def force_reject_transaction (s : DBState) (tx_id : ℕ) : DBState :=
  match s.transactions.find? (fun t => decide (t.id = tx_id)) with
  | none => s
  | some tx =>
    if tx.status = .pending then
      release_btc_address (update_transaction_status s tx_id .cancelled none)
        tx.btc_address
    else s

/-- The status-changing engine operations: the periodic sweep and its expiry
pass, the user cancel action, purchase initiation (which may cancel and
create), payment creation, the admin overrides, and the store's own bulk
expiry statement.  database.update_transaction_status itself is the store
primitive of section 6 of the spec, not an engine operation. -/
inductive EngineOp
  | checkPayments (bal : String → ℚ) (ds : String → ℚ → Bool) (now : ℚ)
  | handleExpired (bal : String → ℚ) (now : ℚ)
  | cancelPlan (user_id : ℕ) (bal : String → ℚ)
  | initiatePurchase (user_id : ℕ) (plan : PlanType) (btc_price : ℚ) (now : ℚ) (r : ℕ)
  | createPayment (user_id : ℕ) (plan : PlanType) (btc_price : ℚ) (now : ℚ) (r : ℕ)
  | forceApprove (tx_id : ℕ) (now : ℚ)
  | forceReject (tx_id : ℕ)
  | expireOld (now : ℚ)

/-- The state reached by running one engine operation. -/
def EngineOp.apply : EngineOp → DBState → DBState
  | .checkPayments bal ds now, s => check_payments_job s bal ds now
  | .handleExpired bal now, s => handle_expired_transactions s bal now
  | .cancelPlan user_id bal, s => cancel_plan s user_id bal
  | .initiatePurchase user_id plan btc_price now r, s =>
      (initiate_purchase s user_id plan btc_price now r).1
  | .createPayment user_id plan btc_price now r, s =>
      (PaymentService.create_payment s user_id plan btc_price now r).1
  | .forceApprove tx_id now, s => force_approve_transaction s tx_id now
  | .forceReject tx_id, s => force_reject_transaction s tx_id
  | .expireOld now, s => expire_old_transactions s now

/-! ## Observation helpers -/

/-- The status of the transaction row with the given id (the first matching
row, as SELECT WHERE id returns it). -/
def txStatusById (s : DBState) (i : ℕ) : Option TxStatus :=
  (s.transactions.find? (fun t => decide (t.id = i))).map (·.status)

/-- The is_used flag of the address row with the given address string. -/
def addrUsed (s : DBState) (a : String) : Option Bool :=
  (s.addresses.find? (fun row => decide (row.address = a))).map (·.is_used)

/-- Transaction ids are pairwise distinct; every trace of the engine from a
freshly seeded store satisfies this, since ids come from the SERIAL
counter. -/
def IdsNodup (s : DBState) : Prop :=
  (s.transactions.map (·.id)).Nodup

/-! ## Shared concrete fixtures -/

/-- A 34-character base58 receiving address used by the concrete fixtures. -/
def addrA : String := "1A1zP1eP5QGefi2DMPTfTL5SLmv7DivfNa"

/-- A second 34-character receiving address. -/
def addrB : String := "1BvBMSEYstWetqTFn5Au4m4GFg7xJaNVN2"

/-- A pending transaction of user 1 for the VIP1 plan on addrA. -/
def txPending1 : Transaction :=
  { id := 0, user_id := 1, plan_type := "VIP1", btc_address := addrA,
    btc_amount := mkRat 1 1000, usd_amount := 50, btc_rate := 50000,
    status := .pending, created_at := 0, expires_at := 30,
    confirmed_at := none }

/-- A store in which user 1 holds the pending transaction txPending1 on the
assigned address addrA while addrB is available. -/
def stPending1 : DBState :=
  { addresses := [{ address := addrA, is_used := true, assigned_to := some 1 },
                  { address := addrB, is_used := false, assigned_to := none }],
    transactions := [txPending1], subscriptions := [], next_tx_id := 1 }

/-- A freshly seeded store: one available address, no transactions, no
subscriptions. -/
def stFresh : DBState :=
  { addresses := [{ address := addrB, is_used := false, assigned_to := none }],
    transactions := [], subscriptions := [], next_tx_id := 0 }

/-- A balance oracle reporting the nonzero balance 0.003 BTC for every
address. -/
def balNonzero : String → ℚ := fun _ => mkRat 3 1000


/-! ## Supporting lemmas: price oracle -/

theorem price_accepted_pos {r : PriceResponse} {q : ℚ}
    (h : price_accepted r = some q) : 0 < q := by
  cases r with
  | ok parsed =>
    cases parsed with
    | none => exact absurd h (by simp [price_accepted])
    | some q0 =>
      by_cases hq : 0 < q0
      · have e : price_accepted (.ok (some q0)) = some q0 := by
          simp [price_accepted, hq]
        rw [e] at h
        cases h
        exact hq
      · have e : price_accepted (.ok (some q0)) = none := by
          simp [price_accepted, hq]
        rw [e] at h
        cases h
  | httpError => exact absurd h (by simp [price_accepted])
  | timeout => exact absurd h (by simp [price_accepted])
  | connError => exact absurd h (by simp [price_accepted])
  | jsonError => exact absurd h (by simp [price_accepted])
  | otherError => exact absurd h (by simp [price_accepted])

/-- C6, counterexample.  A run whose single configured source times out
returns exactly the configured fallback price, and with the fallback
configured as -1 the returned price is not positive: the claim that
get_price never returns a non-positive number fails for a non-positive
configured fallback. -/
theorem c6_counterexample :
    get_btc_price [PriceResponse.timeout] (-1) = -1 ∧
    get_btc_price [PriceResponse.timeout] (-1) ≤ 0 := by
  constructor
  · rfl
  · norm_num [get_btc_price, price_accepted]

/-- C6, amended.  A source's parse is accepted only when strictly positive,
exhaustion of every source returns exactly the configured fallback, and the
returned price is either an accepted (hence positive) source value or the
fallback; consequently the result is positive whenever the configured
fallback is. -/
theorem c6_price_oracle_amended (sources : List PriceResponse)
    (fallback_price : ℚ) (hfb : 0 < fallback_price) :
    0 < get_btc_price sources fallback_price ∧
    ((∀ r ∈ sources, price_accepted r = none) →
      get_btc_price sources fallback_price = fallback_price) ∧
    (get_btc_price sources fallback_price = fallback_price ∨
      ∃ r ∈ sources,
        price_accepted r = some (get_btc_price sources fallback_price)) := by
  induction sources with
  | nil => exact ⟨hfb, fun _ => rfl, Or.inl rfl⟩
  | cons r rest ih =>
    cases h : price_accepted r with
    | none =>
      have e : get_btc_price (r :: rest) fallback_price =
          get_btc_price rest fallback_price := by
        simp [get_btc_price, h]
      refine ⟨by rw [e]; exact ih.1, fun hall => ?_, ?_⟩
      · rw [e]
        exact ih.2.1 (fun x hx => hall x (List.mem_cons_of_mem _ hx))
      · rcases ih.2.2 with h1 | ⟨x, hx, hv⟩
        · exact Or.inl (by rw [e]; exact h1)
        · exact Or.inr ⟨x, List.mem_cons_of_mem _ hx, by rw [e]; exact hv⟩
    | some q =>
      have e : get_btc_price (r :: rest) fallback_price = q := by
        simp [get_btc_price, h]
      refine ⟨by rw [e]; exact price_accepted_pos h, fun hall => ?_, ?_⟩
      · exact absurd (hall r (List.mem_cons_self r rest)) (by simp [h])
      · exact Or.inr ⟨r, List.mem_cons_self r rest, by rw [e]; exact h⟩

/-- C6, witness for the amended theorem at a concrete input. -/
theorem c6_price_oracle_amended_witness :
    0 < get_btc_price [PriceResponse.timeout] 92000 ∧
    ((∀ r ∈ [PriceResponse.timeout], price_accepted r = none) →
      get_btc_price [PriceResponse.timeout] 92000 = 92000) ∧
    (get_btc_price [PriceResponse.timeout] 92000 = 92000 ∨
      ∃ r ∈ [PriceResponse.timeout],
        price_accepted r = some (get_btc_price [PriceResponse.timeout] 92000)) :=
  c6_price_oracle_amended [PriceResponse.timeout] 92000 (by norm_num)

/-! ## Double-spend detector claims -/

/-- C7, confirmed.  For a usable (nonempty) address, whenever the history
fetch does not deliver a parsed 200 payload — any other HTTP status, a
timeout, a connection error, invalid JSON or any other exception — the
detector returns false exactly when the outcome is the 404 not-found
response; every other failure fails closed and returns true. -/
theorem c7_history_failure_fails_closed (a : String) (e : ℚ)
    (resp : HistResponse) (ha : a ≠ "")
    (hfail : ∀ txs, resp ≠ .ok txs) :
    (check_double_spend (some a) e resp = false ↔ resp = .notFound) := by
  cases resp with
  | ok txs => exact absurd rfl (hfail txs)
  | notFound => simp [check_double_spend, ha]
  | httpError => simp [check_double_spend, ha]
  | timeout => simp [check_double_spend, ha]
  | connError => simp [check_double_spend, ha]
  | jsonError => simp [check_double_spend, ha]
  | otherError => simp [check_double_spend, ha]

/-- C7, witness at a concrete failing fetch. -/
theorem c7_history_failure_fails_closed_witness :
    (check_double_spend (some addrA) (1 / 100) HistResponse.timeout = false ↔
      HistResponse.timeout = HistResponse.notFound) :=
  c7_history_failure_fails_closed addrA (1 / 100) HistResponse.timeout
    (by decide) (fun txs h => HistResponse.noConfusion h)

/-- C10, confirmed.  A missing (None) or empty address makes
check_double_spend return false whatever the history source would have
answered, and the history source is not contacted at all on that path —
in contrast with the fetch-failure paths of C7, which return true. -/
theorem c10_invalid_address_fails_open (e : ℚ) (resp : HistResponse) :
    check_double_spend none e resp = false ∧
    check_double_spend (some "") e resp = false ∧
    check_double_spend_contacts none = false ∧
    check_double_spend_contacts (some "") = false := by
  refine ⟨rfl, ?_, rfl, ?_⟩
  · simp [check_double_spend]
  · simp [check_double_spend_contacts]

/-- Two history entries, each paying 1000500 satoshis (0.010005 BTC) to
addrA: each output is 500 satoshis away from the expected 0.01 BTC. -/
def c4_txs : List HistTx :=
  [{ vout := [{ scriptpubkey_address := addrA, value := 1000500 }] },
   { vout := [{ scriptpubkey_address := addrA, value := 1000500 }] }]

/-- C4, code bug, evaluated at the failing input.  The detector's matching
test uses the constant 0.00001 BTC, i.e. 1000 satoshis, although the inline
comment in the source declares a tolerance of 1 satoshi: with two outputs
of 1000500 satoshis against an expected amount of 0.01 BTC the code returns
true, even though both outputs are strictly more than one satoshi
(1/100000000 BTC) away from the expected amount, so under the documented
1-satoshi tolerance neither output matches and the detector would return
false. -/
theorem c4_tolerance_code_bug_eval :
    check_double_spend (some addrA) (1 / 100) (HistResponse.ok c4_txs) = true ∧
    1 / 100000000 < pyAbs (((1000500 : ℚ) / 100000000) - 1 / 100) := by
  have h1 : pyAbs (((1000500 : ℚ) / 100000000) - 1 / 100) = 1 / 200000 := by
    unfold pyAbs
    rw [if_neg (by norm_num)]
    norm_num
  have hstr : (decide (addrA = addrA)) = true := by simp
  have htol :
      (decide (pyAbs (((1000500 : ℚ) / 100000000) - 1 / 100) < 1 / 100000)) = true := by
    rw [decide_eq_true_eq, h1]
    norm_num
  have hcount : count_matching_outputs addrA (1 / 100) c4_txs = 2 := by
    simp only [count_matching_outputs, c4_txs, List.foldl, List.filter,
      Nat.cast_ofNat, hstr, htol, Bool.and_self, List.length]
  have hne : addrA ≠ "" := by simp [addrA]
  constructor
  · simp only [check_double_spend, if_neg hne, hcount]
    decide
  · rw [h1]
    norm_num

/-- pyAbs agrees with the absolute value of Mathlib. -/
theorem pyAbs_eq_abs (q : ℚ) : pyAbs q = |q| := by
  unfold pyAbs
  by_cases h : q < 0
  · rw [if_pos h, abs_of_neg h]
  · rw [if_neg h, abs_of_nonneg (le_of_not_lt h)]

/-! ## Balance oracle claim -/

theorem check_address_balance_go_exhausted (sources : List BalSource)
    (h : ∀ src ∈ sources, bal_usable src = none) :
    (check_address_balance_go sources).1 = 0 := by
  induction sources with
  | nil => rfl
  | cons src rest ih =>
    have hs := h src (List.mem_cons_self _ _)
    have ih1 := ih (fun x hx => h x (List.mem_cons_of_mem _ hx))
    rcases src with ⟨kind, resp⟩
    cases kind <;> cases resp <;>
      first
        | exact ih1
        | (rename_i parsed
           cases parsed with
           | none =>
             simp only [check_address_balance_go]
             exact ih1
           | some b => exact absurd hs (by simp [bal_usable]))

/-- C8, confirmed.  check_address_balance returns zero immediately, without
contacting a single source, for every address below the 26-character
minimum plausible length, and returns zero whenever every configured source
is exhausted without a usable response (skipped as unsupported, non-200,
or a 200 whose parse failed). -/
theorem c8_balance_zero_paths (address : String) (sources : List BalSource) :
    (address.length < 26 → check_address_balance_run address sources = (0, 0)) ∧
    ((∀ src ∈ sources, bal_usable src = none) →
      check_address_balance address sources = 0) := by
  constructor
  · intro h
    simp [check_address_balance_run, h]
  · intro h
    unfold check_address_balance check_address_balance_run
    by_cases hlen : address.length < 26
    · rw [if_pos hlen]
    · rw [if_neg hlen]
      exact check_address_balance_go_exhausted sources h

/-- C8, witness: a 8-character address is rejected with no source contacted,
and a plausible address whose single source times out yields balance 0. -/
theorem c8_balance_zero_paths_witness :
    check_address_balance_run "tooshort"
      [{ kind := .blockstream, resp := .timeout }] = (0, 0) ∧
    check_address_balance addrA [{ kind := .blockstream, resp := .timeout }] = 0 :=
  ⟨(c8_balance_zero_paths "tooshort" _).1 (by decide),
   (c8_balance_zero_paths addrA _).2
     (fun src h => by rw [List.mem_singleton.mp h]; rfl)⟩

/-! ## Address assignment atomicity claim -/

theorem assign_upd_not_available (a : String) (u : ℕ) (x : BtcAddress) :
    (decide ((assign_upd a u x).address = a) && !(assign_upd a u x).is_used)
      = false := by
  unfold assign_upd
  by_cases h : x.address = a ∧ x.is_used = false
  · rw [if_pos h]
    simp
  · rw [if_neg h]
    by_cases ha : x.address = a
    · have hu : x.is_used = true := by
        cases hu : x.is_used
        · exact absurd ⟨ha, hu⟩ h
        · rfl
      simp [ha, hu]
    · simp [ha]

theorem assign_upd_fixed (a : String) (u1 u2 : ℕ) (x : BtcAddress) :
    assign_upd a u2 (assign_upd a u1 x) = assign_upd a u1 x := by
  unfold assign_upd
  by_cases h : x.address = a ∧ x.is_used = false
  · rw [if_pos h]
    simp
  · rw [if_neg h, if_neg h]

/-- C9, confirmed.  The Available-to-Assigned flip is the single conditional
UPDATE of assign_btc_address, an atomic step of the interleaving model, and
it succeeds exactly while some row of the address is Available; after one
attempt for an address, a second competing attempt for the same address
always reports failure and leaves the store unchanged, so of two competing
attempts at most one can succeed and two callers can never both be handed
the same address. -/
theorem c9_conditional_assign_atomic (s : DBState) (a : String) (u1 u2 : ℕ) :
    ((assign_btc_address s a u1).2 = true ↔
      ∃ row ∈ s.addresses, row.address = a ∧ row.is_used = false) ∧
    (assign_btc_address (assign_btc_address s a u1).1 a u2).2 = false ∧
    (assign_btc_address (assign_btc_address s a u1).1 a u2).1 =
      (assign_btc_address s a u1).1 := by
  refine ⟨?_, ?_, ?_⟩
  · show s.addresses.any _ = true ↔ _
    rw [List.any_eq_true]
    constructor
    · rintro ⟨x, hx, hpx⟩
      rcases Bool.and_eq_true_iff.mp hpx with ⟨h1, h2⟩
      exact ⟨x, hx, of_decide_eq_true h1, by
        cases hu : x.is_used
        · rfl
        · rw [hu] at h2; cases h2⟩
    · rintro ⟨x, hx, h1, h2⟩
      exact ⟨x, hx, by rw [h1, h2]; simp⟩
  · show ((s.addresses.map (assign_upd a u1)).any _) = false
    rw [List.any_eq_false]
    intro x hx
    rcases List.mem_map.mp hx with ⟨y, _, rfl⟩
    rw [assign_upd_not_available a u1 y]
    simp
  · show ({ s with addresses := (s.addresses.map (assign_upd a u1)).map (assign_upd a u2) } : DBState) = _
    have e : (s.addresses.map (assign_upd a u1)).map (assign_upd a u2) =
        s.addresses.map (assign_upd a u1) := by
      rw [List.map_map]
      exact List.map_congr_left (fun y _ => assign_upd_fixed a u1 u2 y)
    rw [e]
    rfl

/-! ## Supporting lemmas: transaction status tracking -/

theorem status_upd_id (j : ℕ) (st : TxStatus) (c : Option ℚ)
    (t : Transaction) : (status_upd j st c t).id = t.id := by
  unfold status_upd
  split <;> rfl

theorem expire_upd_id (now : ℚ) (t : Transaction) :
    (expire_upd now t).id = t.id := by
  unfold expire_upd
  split <;> rfl

theorem find_by_id_map (g : Transaction → Transaction)
    (hg : ∀ t, (g t).id = t.id) (l : List Transaction) (i : ℕ) :
    (l.map g).find? (fun t => decide (t.id = i)) =
      (l.find? (fun t => decide (t.id = i))).map g := by
  induction l with
  | nil => rfl
  | cons t l ih =>
    by_cases h : t.id = i
    · rw [List.map_cons, List.find?_cons_of_pos _ (by simp [hg, h]),
        List.find?_cons_of_pos _ (by simp [h])]
      rfl
    · rw [List.map_cons, List.find?_cons_of_neg _ (by simp [hg, h]),
        List.find?_cons_of_neg _ (by simp [h]), ih]

theorem txStatusById_update (s : DBState) (j : ℕ) (st : TxStatus)
    (c : Option ℚ) (i : ℕ) :
    txStatusById (update_transaction_status s j st c) i =
      (txStatusById s i).map (fun old => if i = j then st else old) := by
  unfold txStatusById update_transaction_status
  rw [find_by_id_map _ (status_upd_id j st c)]
  cases hf : s.transactions.find? (fun t => decide (t.id = i)) with
  | none => rfl
  | some u =>
    have hui : u.id = i := by
      have hp := List.find?_some hf
      simpa using hp
    by_cases hij : i = j
    · subst hij
      simp [status_upd, hui]
    · simp [status_upd, hui, hij]

theorem txStatusById_update_ne (s : DBState) (j : ℕ) (st : TxStatus)
    (c : Option ℚ) (i : ℕ) (hij : i ≠ j) :
    txStatusById (update_transaction_status s j st c) i = txStatusById s i := by
  rw [txStatusById_update]
  cases txStatusById s i <;> simp [hij]

theorem txStatusById_release (s : DBState) (a : String) (i : ℕ) :
    txStatusById (release_btc_address s a) i = txStatusById s i := rfl

theorem txStatusById_assign (s : DBState) (a : String) (u : ℕ) (i : ℕ) :
    txStatusById (assign_btc_address s a u).1 i = txStatusById s i := rfl

theorem txStatusById_create_subscription (s : DBState) (uid : ℕ) (pt : String)
    (txid : ℕ) (now : ℚ) (e : Option ℚ) (i : ℕ) :
    txStatusById (create_subscription s uid pt txid now e) i =
      txStatusById s i := rfl

theorem txStatusById_create_transaction (s : DBState) (uid : ℕ)
    (pt ba : String) (amt usd rate now exp : ℚ) (i : ℕ) (st : TxStatus)
    (h : txStatusById s i = some st) :
    txStatusById (create_transaction s uid pt ba amt usd rate now exp).1 i
      = some st := by
  unfold txStatusById at h ⊢
  unfold create_transaction
  rw [List.find?_append]
  cases hf : s.transactions.find? (fun t => decide (t.id = i)) with
  | none => rw [hf] at h; cases h
  | some u =>
    rw [hf] at h
    simpa using h

theorem txStatusById_alloc (s : DBState) (uid : ℕ) (r : ℕ) (i : ℕ) :
    txStatusById (get_next_btc_address_alloc s uid r).1 i = txStatusById s i := by
  unfold get_next_btc_address_alloc
  cases get_available_btc_address s r with
  | none => rfl
  | some a =>
    simp only []
    split <;> rfl

theorem txStatusById_get_next (s : DBState) (uid : ℕ) (r : ℕ) (i : ℕ) :
    txStatusById (get_next_btc_address s uid r).1 i = txStatusById s i := by
  unfold get_next_btc_address
  cases (s.transactions.filter
      (fun t => decide (t.user_id = uid ∧ t.status = .pending))).head? with
  | none => exact txStatusById_alloc s uid r i
  | some t =>
    simp only []
    split
    · exact txStatusById_alloc s uid r i
    · rfl

theorem txStatusById_create_payment (s : DBState) (uid : ℕ) (plan : PlanType)
    (price now : ℚ) (r : ℕ) (i : ℕ) (st : TxStatus)
    (h : txStatusById s i = some st) :
    txStatusById (PaymentService.create_payment s uid plan price now r).1 i
      = some st := by
  unfold PaymentService.create_payment
  cases get_active_subscription s uid now with
  | some sub => exact h
  | none =>
    simp only []
    have hnext : txStatusById (get_next_btc_address s uid r).1 i = some st := by
      rw [txStatusById_get_next]
      exact h
    cases (get_next_btc_address s uid r).2 with
    | none => exact hnext
    | some addr =>
      simp only []
      by_cases hz : price = 0
      · rw [if_pos hz]
        exact hnext
      · rw [if_neg hz]
        exact txStatusById_create_transaction _ _ _ _ _ _ _ _ _ i st hnext

theorem txStatusById_confirm_ne (s : DBState) (tx : Transaction) (now : ℚ)
    (i : ℕ) (h : i ≠ tx.id) :
    txStatusById (confirm_payment s tx now) i = txStatusById s i := by
  unfold confirm_payment
  cases PlanType.ofValue? tx.plan_type with
  | none => exact txStatusById_update_ne s tx.id .confirmed (some now) i h
  | some p =>
    simp only []
    rw [txStatusById_create_subscription]
    exact txStatusById_update_ne s tx.id .confirmed (some now) i h

theorem txStatusById_check_single_ne (bal : String → ℚ)
    (ds : String → ℚ → Bool) (now : ℚ) (s : DBState) (tx : Transaction)
    (i : ℕ) (h : i ≠ tx.id) :
    txStatusById (check_single_payment bal ds now s tx) i = txStatusById s i := by
  unfold check_single_payment
  split
  · split
    · rfl
    · exact txStatusById_confirm_ne s tx now i h
  · rfl

theorem txStatusById_expired_step_ne (bal : String → ℚ) (s : DBState)
    (tx : Transaction) (i : ℕ) (h : i ≠ tx.id) :
    txStatusById (handle_expired_step bal s tx) i = txStatusById s i := by
  unfold handle_expired_step
  rw [txStatusById_update_ne _ tx.id .expired none i h]
  split
  · rfl
  · rfl

theorem txStatusById_cancel_step_ne (bal : String → ℚ) (s : DBState)
    (tx : Transaction) (i : ℕ) (h : i ≠ tx.id) :
    txStatusById (cancel_plan_step bal s tx) i = txStatusById s i := by
  unfold cancel_plan_step
  rw [txStatusById_update_ne _ tx.id .cancelled none i h]
  split
  · rfl
  · rfl

theorem foldl_txStatus_preserved (step : DBState → Transaction → DBState)
    (l : List Transaction) (i : ℕ)
    (hstep : ∀ acc tx, tx ∈ l → i ≠ tx.id →
      txStatusById (step acc tx) i = txStatusById acc i)
    (hl : ∀ tx ∈ l, tx.id ≠ i) (s : DBState) :
    txStatusById (l.foldl step s) i = txStatusById s i := by
  induction l generalizing s with
  | nil => rfl
  | cons t l ih =>
    rw [List.foldl_cons,
      ih (fun acc tx hx => hstep acc tx (List.mem_cons_of_mem _ hx))
        (fun tx hx => hl tx (List.mem_cons_of_mem _ hx)) _]
    exact hstep s t (List.mem_cons_self _ _)
      (fun he => hl t (List.mem_cons_self _ _) he.symm)

theorem find_id_unique (l : List Transaction) (i : ℕ) (u : Transaction)
    (hnd : (l.map (·.id)).Nodup)
    (hu : l.find? (fun t => decide (t.id = i)) = some u) :
    ∀ tx ∈ l, tx.id = i → tx = u := by
  induction l with
  | nil => intro tx htx _; cases htx
  | cons a l ih =>
    intro tx htx hid
    by_cases ha : a.id = i
    · rw [List.find?_cons_of_pos _ (by simpa using ha)] at hu
      cases hu
      rcases List.mem_cons.mp htx with rfl | htx
      · rfl
      · exfalso
        apply (List.nodup_cons.mp hnd).1
        have hmem : tx.id ∈ l.map (·.id) := List.mem_map_of_mem (·.id) htx
        rwa [hid, ← ha] at hmem
    · rw [List.find?_cons_of_neg _ (by simpa using ha)] at hu
      rcases List.mem_cons.mp htx with rfl | htx
      · exact absurd hid ha
      · exact ih (List.nodup_cons.mp hnd).2 hu tx htx hid

/-- A transaction row whose id carries a terminal status blocks any pending
row from sharing its id, given pairwise distinct ids. -/
theorem pending_target_id_ne (s : DBState) (i : ℕ) (st : TxStatus)
    (hnd : IdsNodup s) (hst : txStatusById s i = some st)
    (hterm : st.isTerminal = true) :
    ∀ tx, tx ∈ s.transactions → tx.status = .pending → tx.id ≠ i := by
  intro tx hmem hpend hid
  unfold txStatusById at hst
  cases hf : s.transactions.find? (fun t => decide (t.id = i)) with
  | none => rw [hf] at hst; cases hst
  | some u =>
    rw [hf] at hst
    have hu : tx = u := find_id_unique s.transactions i u hnd hf tx hmem hid
    have hus : u.status = st := by simpa using hst
    rw [← hu, hpend] at hus
    rw [← hus] at hterm
    simp [TxStatus.isTerminal] at hterm

theorem getLast?_mem_list {α : Type} {l : List α} {a : α}
    (h : l.getLast? = some a) : a ∈ l := by
  rcases List.mem_getLast?_eq_getLast (l := l) (x := a) h with ⟨hne, rfl⟩
  exact List.getLast_mem hne

theorem ids_update (s : DBState) (j : ℕ) (st : TxStatus) (c : Option ℚ) :
    (update_transaction_status s j st c).transactions.map (·.id) =
      s.transactions.map (·.id) := by
  unfold update_transaction_status
  simp only []
  rw [List.map_map]
  exact List.map_congr_left (fun t _ => status_upd_id j st c t)

theorem ids_confirm (s : DBState) (tx : Transaction) (now : ℚ) :
    (confirm_payment s tx now).transactions.map (·.id) =
      s.transactions.map (·.id) := by
  unfold confirm_payment
  cases PlanType.ofValue? tx.plan_type with
  | none => exact ids_update s tx.id .confirmed (some now)
  | some p => exact ids_update s tx.id .confirmed (some now)

theorem ids_check_single (bal : String → ℚ) (ds : String → ℚ → Bool)
    (now : ℚ) (s : DBState) (tx : Transaction) :
    (check_single_payment bal ds now s tx).transactions.map (·.id) =
      s.transactions.map (·.id) := by
  unfold check_single_payment
  split
  · split
    · rfl
    · exact ids_confirm s tx now
  · rfl

theorem ids_foldl_check_single (bal : String → ℚ) (ds : String → ℚ → Bool)
    (now : ℚ) (l : List Transaction) (s : DBState) :
    ((l.foldl (check_single_payment bal ds now) s).transactions.map (·.id)) =
      s.transactions.map (·.id) := by
  induction l generalizing s with
  | nil => rfl
  | cons t l ih => rw [List.foldl_cons, ih, ids_check_single]

theorem txStatusById_foldl_release (l : List Transaction) (s : DBState)
    (i : ℕ) :
    txStatusById
      (l.foldl (fun acc tx => release_btc_address acc tx.btc_address) s) i =
      txStatusById s i := by
  induction l generalizing s with
  | nil => rfl
  | cons t l ih => rw [List.foldl_cons, ih, txStatusById_release]

theorem terminal_preserved_handle_expired (s : DBState) (bal : String → ℚ)
    (now : ℚ) (i : ℕ) (st : TxStatus) (hnd : IdsNodup s)
    (hst : txStatusById s i = some st) (hterm : st.isTerminal = true) :
    txStatusById (handle_expired_transactions s bal now) i = some st := by
  unfold handle_expired_transactions
  have hl : ∀ tx ∈ s.transactions.filter
      (fun t => decide (t.status = .pending ∧ t.expires_at ≤ now)),
      tx.id ≠ i := by
    intro tx hx
    rcases List.mem_filter.mp hx with ⟨hmem, hp⟩
    have hp2 : tx.status = .pending ∧ tx.expires_at ≤ now := by simpa using hp
    exact pending_target_id_ne s i st hnd hst hterm tx hmem hp2.1
  rw [foldl_txStatus_preserved _ _ i
      (fun acc tx _ hne => txStatusById_expired_step_ne bal acc tx i hne) hl s]
  exact hst

theorem terminal_preserved_check_payments (s : DBState) (bal : String → ℚ)
    (ds : String → ℚ → Bool) (now : ℚ) (i : ℕ) (st : TxStatus)
    (hnd : IdsNodup s) (hst : txStatusById s i = some st)
    (hterm : st.isTerminal = true) :
    txStatusById (check_payments_job s bal ds now) i = some st := by
  unfold check_payments_job
  have hl : ∀ tx ∈ get_pending_transactions s, tx.id ≠ i := by
    intro tx hx
    rcases List.mem_filter.mp hx with ⟨hmem, hp⟩
    exact pending_target_id_ne s i st hnd hst hterm tx hmem (by simpa using hp)
  have h1 : txStatusById
      ((get_pending_transactions s).foldl (check_single_payment bal ds now) s) i
      = some st := by
    rw [foldl_txStatus_preserved _ _ i
        (fun acc tx _ hne => txStatusById_check_single_ne bal ds now acc tx i hne)
        hl s]
    exact hst
  have hnd1 : IdsNodup
      ((get_pending_transactions s).foldl (check_single_payment bal ds now) s) := by
    unfold IdsNodup
    rw [ids_foldl_check_single]
    exact hnd
  exact terminal_preserved_handle_expired _ bal now i st hnd1 h1 hterm

theorem terminal_preserved_cancel_plan (s : DBState) (uid : ℕ)
    (bal : String → ℚ) (i : ℕ) (st : TxStatus) (hnd : IdsNodup s)
    (hst : txStatusById s i = some st) (hterm : st.isTerminal = true) :
    txStatusById (cancel_plan s uid bal) i = some st := by
  unfold cancel_plan
  have hl : ∀ tx ∈ (get_user_transactions s uid).filter
      (fun t => decide (t.status = .pending)), tx.id ≠ i := by
    intro tx hx
    rcases List.mem_filter.mp hx with ⟨hmem, hp⟩
    have hmem2 : tx ∈ s.transactions := by
      unfold get_user_transactions at hmem
      have hmem3 := List.mem_reverse.mp hmem
      exact (List.mem_filter.mp hmem3).1
    exact pending_target_id_ne s i st hnd hst hterm tx hmem2 (by simpa using hp)
  rw [foldl_txStatus_preserved _ _ i
      (fun acc tx _ hne => txStatusById_cancel_step_ne bal acc tx i hne) hl s]
  exact hst

theorem terminal_preserved_initiate (s : DBState) (uid : ℕ) (plan : PlanType)
    (price now : ℚ) (r : ℕ) (i : ℕ) (st : TxStatus) (hnd : IdsNodup s)
    (hst : txStatusById s i = some st) (hterm : st.isTerminal = true) :
    txStatusById (initiate_purchase s uid plan price now r).1 i = some st := by
  unfold initiate_purchase
  by_cases hz : price = 0
  · rw [if_pos hz]
    exact hst
  · rw [if_neg hz]
    have hcond : (match get_active_subscription s uid now with
        | some sub => py_eq_str_plan sub.plan_type plan
        | none => false) = false := by
      cases get_active_subscription s uid now <;> rfl
    rw [hcond]
    simp only [Bool.false_eq_true, if_false]
    cases hp : get_pending_transaction s uid with
    | none =>
      exact txStatusById_create_payment s uid plan price now r i st hst
    | some ptx =>
      simp only [py_eq_str_plan, Bool.false_eq_true, if_false]
      have hmem : ptx ∈ s.transactions ∧ ptx.status = .pending := by
        unfold get_pending_transaction at hp
        have hmem0 := getLast?_mem_list hp
        rcases List.mem_filter.mp hmem0 with ⟨hm, hq⟩
        have hq2 : ptx.user_id = uid ∧ ptx.status = .pending := by simpa using hq
        exact ⟨hm, hq2.2⟩
      have hne : i ≠ ptx.id :=
        fun he => pending_target_id_ne s i st hnd hst hterm ptx hmem.1 hmem.2 he.symm
      have h2 : txStatusById (cancel_pending_for_replacement s ptx) i = some st := by
        unfold cancel_pending_for_replacement
        rw [txStatusById_release, txStatusById_update_ne _ ptx.id .cancelled none i hne]
        exact hst
      show txStatusById
        (PaymentService.create_payment (cancel_pending_for_replacement s ptx)
          uid plan price now r).1 i = some st
      exact txStatusById_create_payment _ uid plan price now r i st h2

theorem terminal_preserved_force_approve (s : DBState) (tx_id : ℕ) (now : ℚ)
    (i : ℕ) (st : TxStatus) (hst : txStatusById s i = some st)
    (hterm : st.isTerminal = true) :
    txStatusById (force_approve_transaction s tx_id now) i = some st := by
  unfold force_approve_transaction
  cases hf : s.transactions.find? (fun t => decide (t.id = tx_id)) with
  | none => exact hst
  | some tx =>
    simp only []
    by_cases hpend : tx.status = .pending
    · rw [if_pos hpend]
      have hne : i ≠ tx_id := by
        intro he
        subst he
        unfold txStatusById at hst
        rw [hf] at hst
        have hts : tx.status = st := by simpa using hst
        rw [hpend] at hts
        rw [← hts] at hterm
        simp [TxStatus.isTerminal] at hterm
      cases PlanType.ofValue? tx.plan_type with
      | none =>
        rw [txStatusById_update_ne _ tx_id .confirmed (some now) i hne]
        exact hst
      | some p =>
        simp only []
        rw [txStatusById_create_subscription,
          txStatusById_update_ne _ tx_id .confirmed (some now) i hne]
        exact hst
    · rw [if_neg hpend]
      exact hst

theorem terminal_preserved_force_reject (s : DBState) (tx_id : ℕ) (i : ℕ)
    (st : TxStatus) (hst : txStatusById s i = some st)
    (hterm : st.isTerminal = true) :
    txStatusById (force_reject_transaction s tx_id) i = some st := by
  unfold force_reject_transaction
  cases hf : s.transactions.find? (fun t => decide (t.id = tx_id)) with
  | none => exact hst
  | some tx =>
    simp only []
    by_cases hpend : tx.status = .pending
    · rw [if_pos hpend]
      have hne : i ≠ tx_id := by
        intro he
        subst he
        unfold txStatusById at hst
        rw [hf] at hst
        have hts : tx.status = st := by simpa using hst
        rw [hpend] at hts
        rw [← hts] at hterm
        simp [TxStatus.isTerminal] at hterm
      rw [txStatusById_release,
        txStatusById_update_ne _ tx_id .cancelled none i hne]
      exact hst
    · rw [if_neg hpend]
      exact hst

theorem terminal_preserved_expire_old (s : DBState) (now : ℚ) (i : ℕ)
    (st : TxStatus) (hst : txStatusById s i = some st)
    (hterm : st.isTerminal = true) :
    txStatusById (expire_old_transactions s now) i = some st := by
  unfold expire_old_transactions
  simp only []
  rw [txStatusById_foldl_release]
  unfold txStatusById at hst ⊢
  simp only []
  rw [find_by_id_map _ (expire_upd_id now)]
  cases hf : s.transactions.find? (fun t => decide (t.id = i)) with
  | none => rw [hf] at hst; cases hst
  | some u =>
    rw [hf] at hst
    have hus : u.status = st := by simpa using hst
    have hnp : ¬ (u.status = .pending ∧ u.expires_at < now) := by
      intro hcontra
      rw [hcontra.1] at hus
      rw [← hus] at hterm
      simp [TxStatus.isTerminal] at hterm
    have hfix : expire_upd now u = u := by
      unfold expire_upd
      rw [if_neg hnp]
    simp [hfix, hus]

/-- C2, confirmed.  Once a transaction row carries a terminal status
(confirmed, expired or cancelled), no engine operation — the periodic
payment sweep, the expiry pass, the user cancel action, purchase initiation,
payment creation, the admin force-approve/force-reject overrides, or the
store's bulk expiry statement — ever changes that row's status again: every
status-changing operation guards on the row being currently pending
(explicitly, or by fetching only pending rows).  The store primitive
update_transaction_status itself is unguarded, but it is the persisted-store
interface of spec section 6, not an engine operation, and every engine call
site of it targets a pending row. -/
theorem c2_terminal_status_immutable (op : EngineOp) (s : DBState) (i : ℕ)
    (st : TxStatus) (hnd : IdsNodup s) (hst : txStatusById s i = some st)
    (hterm : st.isTerminal = true) :
    txStatusById (op.apply s) i = some st := by
  cases op with
  | checkPayments bal ds now =>
    exact terminal_preserved_check_payments s bal ds now i st hnd hst hterm
  | handleExpired bal now =>
    exact terminal_preserved_handle_expired s bal now i st hnd hst hterm
  | cancelPlan uid bal =>
    exact terminal_preserved_cancel_plan s uid bal i st hnd hst hterm
  | initiatePurchase uid plan price now r =>
    exact terminal_preserved_initiate s uid plan price now r i st hnd hst hterm
  | createPayment uid plan price now r =>
    exact txStatusById_create_payment s uid plan price now r i st hst
  | forceApprove tx_id now =>
    exact terminal_preserved_force_approve s tx_id now i st hst hterm
  | forceReject tx_id =>
    exact terminal_preserved_force_reject s tx_id i st hst hterm
  | expireOld now =>
    exact terminal_preserved_expire_old s now i st hst hterm

/-- A transaction of user 1 that is already confirmed. -/
def txConfirmed1 : Transaction :=
  { id := 0, user_id := 1, plan_type := "VIP1", btc_address := addrA,
    btc_amount := 1, usd_amount := 50, btc_rate := 50000,
    status := .confirmed, created_at := 0, expires_at := 30,
    confirmed_at := some 5 }

/-- A store holding one already-confirmed transaction. -/
def stConfirmed : DBState :=
  { addresses := [{ address := addrA, is_used := true, assigned_to := some 1 }],
    transactions := [txConfirmed1],
    subscriptions := [], next_tx_id := 1 }

/-- C2, witness: an admin force-reject aimed at an already-confirmed
transaction leaves its status confirmed. -/
theorem c2_terminal_status_immutable_witness :
    txStatusById (EngineOp.apply (.forceReject 0) stConfirmed) 0 =
      some .confirmed :=
  c2_terminal_status_immutable (.forceReject 0) stConfirmed 0 .confirmed
    (by unfold IdsNodup stConfirmed; simp) rfl rfl

/-! ## Supporting lemmas: address usage tracking -/

theorem release_upd_address (a : String) (x : BtcAddress) :
    (release_upd a x).address = x.address := by
  unfold release_upd
  split <;> rfl

theorem find_addr_map (g : BtcAddress → BtcAddress)
    (hg : ∀ x, (g x).address = x.address) (l : List BtcAddress) (a : String) :
    (l.map g).find? (fun row => decide (row.address = a)) =
      (l.find? (fun row => decide (row.address = a))).map g := by
  induction l with
  | nil => rfl
  | cons x l ih =>
    by_cases h : x.address = a
    · rw [List.map_cons, List.find?_cons_of_pos _ (by simp [hg, h]),
        List.find?_cons_of_pos _ (by simp [h])]
      rfl
    · rw [List.map_cons, List.find?_cons_of_neg _ (by simp [hg, h]),
        List.find?_cons_of_neg _ (by simp [h]), ih]

theorem addrUsed_release_ne (s : DBState) (b a : String) (hne : a ≠ b) :
    addrUsed (release_btc_address s b) a = addrUsed s a := by
  unfold addrUsed release_btc_address
  simp only []
  rw [find_addr_map _ (release_upd_address b)]
  cases hf : s.addresses.find? (fun row => decide (row.address = a)) with
  | none => rfl
  | some u =>
    have hu : u.address = a := by
      have hp := List.find?_some hf
      simpa using hp
    have hfix : release_upd b u = u := by
      unfold release_upd
      rw [if_neg (fun he => hne (hu.symm.trans he))]
    simp [hfix]

theorem addrUsed_release_self (s : DBState) (a : String) (b0 : Bool)
    (h : addrUsed s a = some b0) :
    addrUsed (release_btc_address s a) a = some false := by
  unfold addrUsed at h ⊢
  unfold release_btc_address
  simp only []
  rw [find_addr_map _ (release_upd_address a)]
  cases hf : s.addresses.find? (fun row => decide (row.address = a)) with
  | none => rw [hf] at h; cases h
  | some u =>
    have hu : u.address = a := by
      have hp := List.find?_some hf
      simpa using hp
    have hfix : release_upd a u =
        { u with is_used := false, assigned_to := none } := by
      unfold release_upd
      rw [if_pos hu]
    simp [hfix]

theorem addrUsed_update (s : DBState) (j : ℕ) (st : TxStatus) (c : Option ℚ)
    (a : String) :
    addrUsed (update_transaction_status s j st c) a = addrUsed s a := rfl

theorem foldl_addrUsed_preserved (step : DBState → Transaction → DBState)
    (l : List Transaction) (a : String)
    (hstep : ∀ acc tx, addrUsed (step acc tx) a = addrUsed acc a)
    (s : DBState) :
    addrUsed (l.foldl step s) a = addrUsed s a := by
  induction l generalizing s with
  | nil => rfl
  | cons t l ih => rw [List.foldl_cons, ih, hstep]

theorem addrUsed_expired_step (bal : String → ℚ) (s : DBState)
    (tx : Transaction) (a : String) (hbal : bal a ≠ 0) :
    addrUsed (handle_expired_step bal s tx) a = addrUsed s a := by
  unfold handle_expired_step
  rw [addrUsed_update]
  split
  · rename_i h0
    apply addrUsed_release_ne
    intro he
    rw [he] at hbal
    exact hbal h0
  · rfl

theorem addrUsed_cancel_step (bal : String → ℚ) (s : DBState)
    (tx : Transaction) (a : String) (hbal : bal a ≠ 0) :
    addrUsed (cancel_plan_step bal s tx) a = addrUsed s a := by
  unfold cancel_plan_step
  rw [addrUsed_update]
  split
  · rename_i h0
    apply addrUsed_release_ne
    intro he
    rw [he] at hbal
    exact hbal h0
  · rfl

/-- C1, counterexample.  User 1 holds a pending transaction on addrA, whose
observed balance is nonzero (0.003 BTC); replacing the plan through
initiate_purchase cancels the transaction and nevertheless makes addrA
Available again — the release is not gated on a zero balance (no balance is
consulted at all on this path). -/
theorem c1_counterexample :
    balNonzero addrA ≠ 0 ∧
    txStatusById (initiate_purchase stPending1 1 .VIP2 50000 10 1).1 0 =
      some .cancelled ∧
    addrUsed (initiate_purchase stPending1 1 .VIP2 50000 10 1).1 addrA =
      some false := by
  refine ⟨by decide, by decide, by decide⟩

/-- C1, amended.  On transition to Expired via the payment checker's sweep,
and on Cancelled via the explicit cancel-plan action, the address is
released only if its observed balance is exactly zero (with a nonzero
balance its usage flag is untouched); but on Cancelled via plan replacement
in initiate_purchase (cancel_pending_for_replacement) and via admin
force-reject, the address is released unconditionally, with no balance
check. -/
theorem c1_release_zero_gated_amended (s : DBState) (bal : String → ℚ)
    (now : ℚ) (uid : ℕ) (a : String) (ptx : Transaction) (tx_id : ℕ)
    (tx : Transaction) (bp b : Bool)
    (hbal : bal a ≠ 0)
    (hp : addrUsed s ptx.btc_address = some bp)
    (hfind : s.transactions.find? (fun t => decide (t.id = tx_id)) = some tx)
    (htxp : tx.status = .pending)
    (hb : addrUsed s tx.btc_address = some b) :
    addrUsed (handle_expired_transactions s bal now) a = addrUsed s a ∧
    addrUsed (cancel_plan s uid bal) a = addrUsed s a ∧
    addrUsed (cancel_pending_for_replacement s ptx) ptx.btc_address =
      some false ∧
    addrUsed (force_reject_transaction s tx_id) tx.btc_address = some false := by
  refine ⟨?_, ?_, ?_, ?_⟩
  · exact foldl_addrUsed_preserved _ _ a
      (fun acc tx2 => addrUsed_expired_step bal acc tx2 a hbal) s
  · exact foldl_addrUsed_preserved _ _ a
      (fun acc tx2 => addrUsed_cancel_step bal acc tx2 a hbal) s
  · unfold cancel_pending_for_replacement
    exact addrUsed_release_self _ _ bp hp
  · unfold force_reject_transaction
    rw [hfind]
    simp only [if_pos htxp]
    exact addrUsed_release_self _ _ b hb

/-- C1, witness for the amended theorem on the concrete pending store. -/
theorem c1_release_zero_gated_amended_witness :
    addrUsed (handle_expired_transactions stPending1 balNonzero 100) addrA =
      addrUsed stPending1 addrA ∧
    addrUsed (cancel_plan stPending1 1 balNonzero) addrA =
      addrUsed stPending1 addrA ∧
    addrUsed (cancel_pending_for_replacement stPending1 txPending1)
      txPending1.btc_address = some false ∧
    addrUsed (force_reject_transaction stPending1 0)
      txPending1.btc_address = some false :=
  c1_release_zero_gated_amended stPending1 balNonzero 100 1 addrA txPending1 0
    txPending1 true true (by decide) (by decide) (by decide) rfl (by decide)

/-! ## Payment creation claim -/

theorem get_available_some_mem (s : DBState) (r : ℕ) (a : String)
    (h : get_available_btc_address s r = some a) :
    ∃ row ∈ s.addresses, row.address = a ∧ row.is_used = false := by
  unfold get_available_btc_address at h
  simp only [] at h
  cases hg : (s.addresses.filter (fun x => !x.is_used)).get?
      (r % (s.addresses.filter (fun x => !x.is_used)).length) with
  | none => rw [hg] at h; cases h
  | some row =>
    rw [hg] at h
    have hrow : row ∈ s.addresses.filter (fun x => !x.is_used) :=
      List.get?_mem hg
    rcases List.mem_filter.mp hrow with ⟨hmem, hused⟩
    refine ⟨row, hmem, ?_, ?_⟩
    · exact Option.some.inj h
    · cases hu : row.is_used
      · rfl
      · rw [hu] at hused; cases hused

theorem assign_hit_of_available (s : DBState) (a : String) (u : ℕ)
    (h : ∃ row ∈ s.addresses, row.address = a ∧ row.is_used = false) :
    (assign_btc_address s a u).2 = true := by
  rcases h with ⟨row, hmem, ha, hu⟩
  show s.addresses.any _ = true
  rw [List.any_eq_true]
  exact ⟨row, hmem, by rw [ha, hu]; simp⟩

/-- C3, counterexample.  User 1 has no active subscription and an Available
address (addrB) exists, yet create_payment returns none, because the user
already holds a pending transaction: the claim's two stated failure causes
are not exhaustive. -/
theorem c3_counterexample :
    get_active_subscription stPending1 1 10 = none ∧
    get_available_btc_address stPending1 0 = some addrB ∧
    (PaymentService.create_payment stPending1 1 .VIP1 50000 10 0).2 = none := by
  refine ⟨rfl, by decide, by decide⟩

/-- C3, amended.  create_payment returns none when the user holds an active
subscription, when the user already has a pending transaction (with a
nonempty stored address), or when no Available address exists; otherwise,
for a nonzero current price, it creates and returns a pending transaction
with btc_amount = plan.usd_price / current_price and
expires_at = now + the payment timeout on the allocated address. -/
theorem c3_create_payment_amended (s : DBState) (uid : ℕ) (plan : PlanType)
    (price now : ℚ) (r : ℕ) (hprice : price ≠ 0) :
    (∀ sub, get_active_subscription s uid now = some sub →
      (PaymentService.create_payment s uid plan price now r).2 = none) ∧
    (∀ t, (s.transactions.filter
        (fun t2 => decide (t2.user_id = uid ∧ t2.status = .pending))).head?
        = some t →
      t.btc_address ≠ "" →
      (PaymentService.create_payment s uid plan price now r).2 = none) ∧
    (get_available_btc_address s r = none →
      (PaymentService.create_payment s uid plan price now r).2 = none) ∧
    (get_active_subscription s uid now = none →
      (s.transactions.filter
        (fun t2 => decide (t2.user_id = uid ∧ t2.status = .pending))).head?
        = none →
      ∀ a, get_available_btc_address s r = some a →
      ∃ tx, (PaymentService.create_payment s uid plan price now r).2 = some tx ∧
        tx.status = .pending ∧
        tx.btc_amount = price_usd plan / price ∧
        tx.usd_amount = price_usd plan ∧
        tx.btc_rate = price ∧
        tx.btc_address = a ∧
        tx.created_at = now ∧
        tx.expires_at = now + PAYMENT_TIMEOUT_MINUTES) := by
  refine ⟨?_, ?_, ?_, ?_⟩
  · intro sub hsub
    unfold PaymentService.create_payment
    rw [hsub]
  · intro t ht hne
    unfold PaymentService.create_payment
    cases get_active_subscription s uid now with
    | some sub => rfl
    | none =>
      simp only []
      have hn : get_next_btc_address s uid r = (s, none) := by
        unfold get_next_btc_address
        rw [ht]
        simp only []
        rw [if_neg hne]
      rw [hn]
  · intro hav
    unfold PaymentService.create_payment
    cases get_active_subscription s uid now with
    | some sub => rfl
    | none =>
      simp only []
      have hn : get_next_btc_address s uid r = (s, none) := by
        unfold get_next_btc_address
        cases ht : (s.transactions.filter
            (fun t2 => decide (t2.user_id = uid ∧ t2.status = .pending))).head? with
        | none =>
          unfold get_next_btc_address_alloc
          rw [hav]
        | some t =>
          simp only []
          split
          · unfold get_next_btc_address_alloc
            rw [hav]
          · rfl
      rw [hn]
  · intro hsub hpend a ha
    have hhit : (assign_btc_address s a uid).2 = true :=
      assign_hit_of_available s a uid (get_available_some_mem s r a ha)
    have hn : get_next_btc_address s uid r =
        ((assign_btc_address s a uid).1, some a) := by
      unfold get_next_btc_address
      rw [hpend]
      unfold get_next_btc_address_alloc
      rw [ha]
      simp [hhit]
    unfold PaymentService.create_payment
    rw [hsub]
    simp only []
    rw [hn]
    simp only []
    rw [if_neg hprice]
    exact ⟨_, rfl, rfl, rfl, rfl, rfl, rfl, rfl, rfl⟩

/-- C3, witness: on a fresh store with one available address, the spec
scenario — $100 plan at a $50,000/BTC rate — yields a pending transaction
of 0.002 BTC (1/500) expiring 30 minutes after creation. -/
theorem c3_create_payment_amended_witness :
    ∃ tx, (PaymentService.create_payment stFresh 1 .VIP2 50000 0 0).2 =
        some tx ∧
      tx.status = .pending ∧ tx.btc_amount = 1 / 500 ∧
      tx.btc_address = addrB ∧ tx.expires_at = 30 := by
  rcases (c3_create_payment_amended stFresh 1 .VIP2 50000 0 0
      (by norm_num)).2.2.2 rfl rfl addrB (by decide) with
    ⟨tx, h1, h2, h3, h4, h5, h6, h7, h8⟩
  refine ⟨tx, h1, h2, ?_, h6, ?_⟩
  · rw [h3]
    norm_num [price_usd]
  · rw [h8]
    norm_num [PAYMENT_TIMEOUT_MINUTES]

/-! ## Same-plan retry claim -/

/-- Whether an initiate_purchase outcome is a freshly created transaction. -/
def PurchaseResult.isCreated : PurchaseResult → Bool
  | .created _ => true
  | _ => false

/-- C5, code bug, evaluated at the failing input.  User 1 re-requests the
same plan (VIP1) for which the pending transaction txPending1 exists.  The
source's own comments say this must show the existing transaction, but the
branch condition compares the stored plan string with the PlanType enum
member using Python ==, which is always False for an Enum vs a str; so
instead the code cancels the existing transaction, releases addrA, and
creates a brand-new pending transaction (id 1) on a freshly allocated
address (addrB), which ends up Assigned. -/
theorem c5_same_plan_retry_code_bug_eval :
    py_eq_str_plan txPending1.plan_type PlanType.VIP1 = false ∧
    (initiate_purchase stPending1 1 .VIP1 50000 10 1).2.isCreated = true ∧
    txStatusById (initiate_purchase stPending1 1 .VIP1 50000 10 1).1 0 =
      some .cancelled ∧
    ((initiate_purchase stPending1 1 .VIP1 50000 10 1).1.transactions.map
      (fun t => (t.id, t.btc_address, t.status))) =
      [(0, addrA, .cancelled), (1, addrB, .pending)] ∧
    addrUsed (initiate_purchase stPending1 1 .VIP1 50000 10 1).1 addrB =
      some true := by
  refine ⟨rfl, by decide, by decide, by decide, by decide⟩
